import Mathlib

/-!
Verification of the rent-indexation engine of this repository.

The TypeScript sources are shallowly embedded:
* JS numbers are modelled as exact rationals (`ℚ`); the claims under study are
  structural (which branch fires, which field is emitted, which closed-form
  expression a field equals), so exact arithmetic is the right model.
* JS `Date` values are modelled as calendar dates `(year, month, day)`; the
  tenancy date strings coming from the ERP are ISO `YYYY-MM-DD` date fields,
  so a parsed date models them faithfully, with `none` for an absent field.
* JSON fields that are absent or `null` are both modelled as `none`; where a
  claim distinguishes presence (e.g. `applied_percentage`, `reason`) the code
  only ever emits those fields with non-null values, so `some` means
  "present" exactly.
* External collaborators (the CPI lookup tables of `lib/indexationData`,
  which are not among the source files, and `Date.parse` for free-form
  strings) are parameters of the embedded functions.
-/

/-- Calendar date, modelling a JS `Date` (time of day is irrelevant to the
engine: all comparisons in the source are between date-valued fields). -/
structure Date where
  year : Int
  month : Nat
  day : Nat
  deriving DecidableEq

/-- Lexicographic comparison of calendar dates, modelling JS `Date` `<=`. -/
def dateLe (a b : Date) : Bool :=
  if a.year ≠ b.year then decide (a.year < b.year)
  else if a.month ≠ b.month then decide (a.month < b.month)
  else decide (a.day ≤ b.day)

/-- Gregorian leap-year rule, as produced by `new Date(year, 1, 29)`. -/
def isLeapYear (y : Int) : Bool :=
  y % 4 = 0 && (y % 100 ≠ 0 || y % 400 = 0)

/-- Number of days of month `m` (1-based) of year `y`; embeds `daysInMonth`
of `lib/dateKeys.ts` (`new Date(year, month0 + 1, 0).getDate()`). -/
def daysInMonth (y : Int) (m : Nat) : Nat :=
  if m = 2 then (if isLeapYear y then 29 else 28)
  else if m = 4 ∨ m = 6 ∨ m = 9 ∨ m = 11 then 30
  else 31

/-- Embeds JS `setMonth` on a date: the (0-based) month index is normalized
into the year, and a day beyond the target month rolls into the next month. -/
def jsSetMonth (d : Date) (mIdx : Int) : Date :=
  let y : Int := d.year + mIdx.ediv 12
  let m : Nat := (mIdx.emod 12).toNat + 1
  let dim := daysInMonth y m
  if d.day ≤ dim then ⟨y, m, d.day⟩
  else if m = 12 then ⟨y + 1, 1, d.day - dim⟩
  else ⟨y, m + 1, d.day - dim⟩

/-- Embeds `addMonths` of `lib/dateKeys.ts`: set the day to 1, shift the
month (JS `setMonth` normalizes overflow into the year), then restore the
original day clamped to the target month's length. -/
def addMonths (d : Date) (months : Int) : Date :=
  let total : Int := d.year * 12 + (d.month : Int) - 1 + months
  let y : Int := total.ediv 12
  let m : Nat := (total.emod 12).toNat + 1
  ⟨y, m, min d.day (daysInMonth y m)⟩

/-- Two-digit zero padding, embedding `String(x).padStart(2, "0")`. -/
def pad2 (n : Nat) : String :=
  if n < 10 then "0" ++ toString n else toString n

/-- Embeds `monthKey` of `lib/dateKeys.ts`: `"MM/YYYY"`. -/
def monthKey (d : Date) : String :=
  pad2 d.month ++ "/" ++ toString d.year

/-- Embeds `prevMonthKey` of `lib/dateKeys.ts`: set the day to 1, step one
month back, format. -/
def prevMonthKey (from_ : Date) : String :=
  monthKey (jsSetMonth ⟨from_.year, from_.month, 1⟩ ((from_.month : Int) - 2))

/-- Embeds `currentAnnualKey` of `app/api/tenancies/route.ts`: the year of
the month preceding `now` (JS `setMonth(getMonth() - 1)` then `getFullYear`). -/
def currentAnnualKey (now : Date) : String :=
  toString (jsSetMonth now ((now.month : Int) - 2)).year

/-- Embeds the regex cascade of `parseToMonthKey` (`lib/dateKeys.ts`):
`^(\d{4})-(\d{2})(?:-(\d{2}))?$`, then `^(\d{2})/(\d{2})/(\d{4})$`, then
`^(\d{2})/(\d{4})$`, each returning the `"MM/YYYY"` rearrangement. -/
def matchToMonthKey (input : String) : Option String :=
  match input.data with
  | [a, b, c, d, '-', e, f] =>
      if [a, b, c, d, e, f].all Char.isDigit
      then some (String.mk [e, f] ++ "/" ++ String.mk [a, b, c, d]) else none
  | [a, b, c, d, '-', e, f, '-', g, h] =>
      if [a, b, c, d, e, f, g, h].all Char.isDigit
      then some (String.mk [e, f] ++ "/" ++ String.mk [a, b, c, d]) else none
  | [a, b, '/', c, d, '/', e, f, g, h] =>
      if [a, b, c, d, e, f, g, h].all Char.isDigit
      then some (String.mk [c, d] ++ "/" ++ String.mk [e, f, g, h]) else none
  | [a, b, '/', c, d, e, f] =>
      if [a, b, c, d, e, f].all Char.isDigit
      then some (String.mk [a, b] ++ "/" ++ String.mk [c, d, e, f]) else none
  | _ => none

/-- Embeds `parseToMonthKey` of `lib/dateKeys.ts`. The final fallback calls
the JS builtin `Date.parse` on arbitrary strings; that external parser is
passed in as `dateParse` (returning `none` for `NaN`). -/
def parseToMonthKey (dateParse : String → Option Date) (input : String) :
    Option String :=
  if input = "" then none
  else match matchToMonthKey input with
    | some k => some k
    | none => (dateParse input).map monthKey

/-- The five index kinds of `app/api/tenancies/route.ts`. -/
inductive IndexKind
  | VPI
  | VPIAnnual
  | VPIAutomatic
  | VPIAutomaticAnnual
  | Other
  deriving DecidableEq

/-- A `partially_passing_on` value as delivered by the ERP:
`number | boolean` (absence is modelled by `Option` at the use site). -/
inductive PPPVal
  | num (q : ℚ)
  | flag (b : Bool)
  deriving DecidableEq

/-- Embeds the `TenancyRec` input record of `app/api/tenancies/route.ts`
(the fields the eligibility computation reads). -/
structure TenancyRec where
  index_name : Option String
  lock_date : Option Date
  adjustment_date : Option Date
  threshold : Option ℚ
  partially_passing_on : Option PPPVal
  maximal_percentage : Option ℚ
  waiting_time : Option Int
  current_rent : Option ℚ
  indexing_rent : Option ℚ
  deriving DecidableEq

/-- ASCII lower-casing of one character, as JS `toLowerCase` acts on the
characters appearing in the index labels. -/
def lowerChar (c : Char) : Char :=
  if c.isUpper then Char.ofNat (c.toNat + 32) else c

/-- Embeds `(name || "").toLowerCase().trim()`: lower-case every character,
then drop whitespace from both ends. -/
def lowerTrim (s : String) : String :=
  String.mk
    ((((s.data.map lowerChar).dropWhile Char.isWhitespace).reverse.dropWhile
      Char.isWhitespace).reverse)

/-- Embeds `detectIndexKind`: case- and whitespace-insensitive match of the
index label against the four canonical phrases. -/
def detectIndexKind (name : Option String) : IndexKind :=
  let n := lowerTrim (name.getD "")
  if n = "vpi" then .VPI
  else if n = "vpi - annual" then .VPIAnnual
  else if n = "vpi automatic" then .VPIAutomatic
  else if n = "vpi automatic - annual" then .VPIAutomaticAnnual
  else .Other

/-- Embeds `coercePPP`: numbers pass through (including 0), booleans become
1/0, and `null`/`undefined` default to 1. -/
def coercePPP (v : Option PPPVal) : ℚ :=
  match v with
  | some (.num q) => q
  | some (.flag b) => if b then 1 else 0
  | none => 1

/-- Embeds `capIncrease`: `!cap || cap <= 0` means uncapped, otherwise the
value is clamped to `cap` from above. -/
def capIncrease (val : ℚ) (cap : ℚ) : ℚ :=
  if cap ≤ 0 then val else min val cap

/-- JS falsiness of a nullable number: `null`/`undefined` or `0`. -/
def jsFalsy (x : Option ℚ) : Bool :=
  match x with
  | none => true
  | some v => v = 0

/-- Embeds the per-tenancy verdict object the route emits. Fields the
current branch does not emit are `none`/`false`; `applied_percentage` and
`reason`, when emitted, always carry non-null values in the source, so
`some` coincides with field presence for them. -/
structure Verdict where
  blocked_by_lock : Bool := false
  index_kind : Option IndexKind := none
  adjustment_month_key : Option String := none
  adjustment_year_key : Option String := none
  current_month_key : Option String := none
  current_year_key : Option String := none
  adjustment_index : Option ℚ := none
  current_index : Option ℚ := none
  delta : Option ℚ := none
  eligible_now : Bool := false
  applied_percentage : Option ℚ := none
  next_wait_date : Option Date := none
  reason : Option String := none
  deriving DecidableEq

/-- Fields shared by every verdict emitted after kind resolution. -/
def kindBase (kind : IndexKind) (amk ayk : Option String) (cmk cyk : String)
    (iAdj iCur : Option ℚ) : Verdict :=
  { index_kind := some kind
    adjustment_month_key := amk
    adjustment_year_key := ayk
    current_month_key := some cmk
    current_year_key := some cyk
    adjustment_index := iAdj
    current_index := iCur }

/-- Embeds the non-automatic branch (step 6) of the route: kinds `VPI` and
`VPI - Annual`. -/
def manualVerdict (kind : IndexKind) (amk ayk : Option String) (cmk cyk : String)
    (iAdj iCur : Option ℚ) (hasAdjDate waitReached : Bool)
    (waitUntil : Option Date) (delta : Option ℚ) (threshold ppp cap : ℚ) :
    Verdict :=
  if !hasAdjDate then
    { kindBase kind amk ayk cmk cyk iAdj iCur with
      reason := some "no adjustment_date" }
  else if jsFalsy iAdj || jsFalsy iCur then
    { kindBase kind amk ayk cmk cyk iAdj iCur with
      reason := some "missing index data" }
  else if !waitReached then
    { kindBase kind amk ayk cmk cyk iAdj iCur with
      delta := delta
      next_wait_date := waitUntil
      reason := some "waiting_time not reached" }
  else if delta.getD 0 < threshold then
    { kindBase kind amk ayk cmk cyk iAdj iCur with
      delta := delta
      reason := some "delta below threshold" }
  else
    let applied := capIncrease (delta.getD 0 * ppp) cap
    { kindBase kind amk ayk cmk cyk iAdj iCur with
      delta := delta
      eligible_now := decide (0 < applied)
      applied_percentage := some applied }

/-- Embeds the automatic branch (step 7) of the route: kinds `VPI Automatic`
and `VPI Automatic - Annual`. -/
def autoVerdict (kind : IndexKind) (amk ayk : Option String) (cmk cyk : String)
    (iAdj iCur : Option ℚ) (hasAdjDate waitReached : Bool)
    (waitUntil : Option Date) (delta : Option ℚ) (threshold ppp cap : ℚ) :
    Verdict :=
  if jsFalsy iAdj || jsFalsy iCur || !hasAdjDate then
    { kindBase kind amk ayk cmk cyk iAdj iCur with
      reason := some "missing adjustment date or index" }
  else
    if !(if threshold = 0 then waitReached
         else waitReached || decide (threshold ≤ delta.getD 0)) then
      { kindBase kind amk ayk cmk cyk iAdj iCur with
        delta := delta
        next_wait_date := waitUntil
        reason := some "automatic: neither wait nor threshold reached" }
    else
      let applied := capIncrease (delta.getD 0 * ppp) cap
      { kindBase kind amk ayk cmk cyk iAdj iCur with
        delta := delta
        eligible_now := decide (0 < applied)
        applied_percentage := some applied }

/-- Embeds the lock check `lock && lock >= now` (step 1 of the route). -/
def lockActive (now : Date) (t : TenancyRec) : Bool :=
  match t.lock_date with
  | some l => dateLe now l
  | none => false

/-- The verdict of the lock branch. -/
def lockVerdict : Verdict :=
  { blocked_by_lock := true, reason := some "locked (lock_date >= today)" }

/-- The verdict of the unhandled-kind branch. -/
def otherVerdict (amk ayk : Option String) (cmk cyk : String) : Verdict :=
  { index_kind := some .Other
    adjustment_month_key := amk
    adjustment_year_key := ayk
    current_month_key := some cmk
    current_year_key := some cyk
    reason := some "index kind not handled" }

/-- Month key derived from `adjustment_date` (`parseToMonthKey` applied to
the ISO date string from the ERP). -/
def adjMonthKeyOf (t : TenancyRec) : Option String :=
  t.adjustment_date.map monthKey

/-- Year key derived from `adjustment_date`
(`adjustmentYearKeyFromDateStr`). -/
def adjYearKeyOf (t : TenancyRec) : Option String :=
  t.adjustment_date.map (fun d => toString d.year)

/-- Whether a kind resolves against the monthly table. -/
def isMonthlyKind (kind : IndexKind) : Bool :=
  kind = IndexKind.VPI || kind = IndexKind.VPIAutomatic

/-- The resolved previous ("adjustment") index `I_adj`. -/
def iAdjOf (monthly yearly : String → Option ℚ) (kind : IndexKind)
    (t : TenancyRec) : Option ℚ :=
  if isMonthlyKind kind then (adjMonthKeyOf t).bind monthly
  else (adjYearKeyOf t).bind yearly

/-- The resolved current ("reference") index `I_cur`. -/
def iCurOf (monthly yearly : String → Option ℚ) (kind : IndexKind)
    (now : Date) : Option ℚ :=
  if isMonthlyKind kind then monthly (prevMonthKey now)
  else yearly (currentAnnualKey now)

/-- The wait deadline `adjustment_date + waiting_time` months. -/
def waitUntilOf (t : TenancyRec) : Option Date :=
  t.adjustment_date.map (fun d => addMonths d (t.waiting_time.getD 0))

/-- Embeds `waitReached = !!(waitUntil && waitUntil <= now)`. -/
def waitReachedOf (now : Date) (t : TenancyRec) : Bool :=
  match waitUntilOf t with
  | some w => dateLe w now
  | none => false

/-- Embeds `delta = I_adj && I_cur ? I_cur / I_adj - 1 : null` (JS falsiness:
a null or zero operand yields `null`). -/
def deltaOf (iAdj iCur : Option ℚ) : Option ℚ :=
  match iAdj, iCur with
  | some a, some c => if a = 0 ∨ c = 0 then none else some (c / a - 1)
  | _, _ => none

/-- Embeds the per-tenancy body of the `items` map in `GET` of
`app/api/tenancies/route.ts`: lock check, kind resolution, index resolution,
then the manual or automatic eligibility logic. The CPI lookup tables of
`lib/indexationData` are not among the source files and enter as the
`monthly`/`yearly` parameters. The route reads no request parameters: the
reference keys are always derived from `now`. -/
def evaluate (monthly yearly : String → Option ℚ) (now : Date)
    (t : TenancyRec) : Verdict :=
  if lockActive now t then lockVerdict
  else
    let kind := detectIndexKind t.index_name
    if kind = .Other then
      otherVerdict (adjMonthKeyOf t) (adjYearKeyOf t) (prevMonthKey now)
        (currentAnnualKey now)
    else
      let iAdj := iAdjOf monthly yearly kind t
      let iCur := iCurOf monthly yearly kind now
      if kind = .VPI ∨ kind = .VPIAnnual then
        manualVerdict kind (adjMonthKeyOf t) (adjYearKeyOf t)
          (prevMonthKey now) (currentAnnualKey now) iAdj iCur
          t.adjustment_date.isSome (waitReachedOf now t) (waitUntilOf t)
          (deltaOf iAdj iCur) (t.threshold.getD 0)
          (coercePPP t.partially_passing_on) (t.maximal_percentage.getD 0)
      else
        autoVerdict kind (adjMonthKeyOf t) (adjYearKeyOf t)
          (prevMonthKey now) (currentAnnualKey now) iAdj iCur
          t.adjustment_date.isSome (waitReachedOf now t) (waitUntilOf t)
          (deltaOf iAdj iCur) (t.threshold.getD 0)
          (coercePPP t.partially_passing_on) (t.maximal_percentage.getD 0)

/-- A monthly CPI table with a declining reading, for concrete runs. -/
def declineTbl : String → Option ℚ := fun k =>
  if k = "01/2023" then some 110 else if k = "04/2024" then some 100 else none

/-- A monthly CPI table matching the end-to-end example of the spec. -/
def riseTbl : String → Option ℚ := fun k =>
  if k = "01/2023" then some 100
  else if k = "01/2024" then some (207 / 2) else none

/-- An empty yearly table. -/
def emptyTbl : String → Option ℚ := fun _ => none

/-- An automatic tenancy: zero threshold, wait reached at 2024-05-20. -/
def autoTen : TenancyRec :=
  { index_name := some "VPI Automatic", lock_date := none,
    adjustment_date := some ⟨2023, 1, 1⟩, threshold := some 0,
    partially_passing_on := none, maximal_percentage := none,
    waiting_time := some 12, current_rent := none, indexing_rent := none }

/-- A manual `VPI` tenancy with a numeric zero pass-through ratio. -/
def pppZeroTen : TenancyRec :=
  { index_name := some "VPI", lock_date := none,
    adjustment_date := some ⟨2023, 1, 1⟩, threshold := some 0,
    partially_passing_on := some (.num 0), maximal_percentage := none,
    waiting_time := some 12, current_rent := none, indexing_rent := none }

/-- The declining table with the two readings swapped: same tenancy, same
date, only the index values differ. -/
def riseAutoTbl : String → Option ℚ := fun k =>
  if k = "01/2023" then some 100 else if k = "04/2024" then some 110 else none

/-- The 0-based month counter of a date: `year * 12 + (month - 1)`. -/
def monthIndex (d : Date) : Int := d.year * 12 + (d.month : Int) - 1

/-- Modelled from the spec: the ordered decision table of its section 4.1 —
lock check first, then kind resolution, then the per-kind checks in their
listed order — where "unresolved" means the index lookup returned no
value, and the first failing rule determines the reason. -/
def specFirstFailingReason (m y : String → Option ℚ) (now : Date)
    (t : TenancyRec) : Option String :=
  if lockActive now t then some "locked (lock_date >= today)"
  else
    let kind := detectIndexKind t.index_name
    if kind = .Other then some "index kind not handled"
    else
      let iAdj := iAdjOf m y kind t
      let iCur := iCurOf m y kind now
      if kind = .VPI ∨ kind = .VPIAnnual then
        if t.adjustment_date.isNone then some "no adjustment_date"
        else if iAdj.isNone ∨ iCur.isNone then some "missing index data"
        else if waitReachedOf now t = false then
          some "waiting_time not reached"
        else if (deltaOf iAdj iCur).getD 0 < t.threshold.getD 0 then
          some "delta below threshold"
        else none
      else
        if iAdj.isNone ∨ iCur.isNone ∨ t.adjustment_date.isNone then
          some "missing adjustment date or index"
        else if (if t.threshold.getD 0 = 0 then waitReachedOf now t
                 else waitReachedOf now t ||
                   decide (t.threshold.getD 0 ≤
                     (deltaOf iAdj iCur).getD 0)) = false then
          some "automatic: neither wait nor threshold reached"
        else none

/-- A constant CPI table (every key published with value 100). -/
def constTbl : String → Option ℚ := fun _ => some 100

/-- The side-effecting steps of the confirmation flow
(`app/api/indexations/confirm/route.ts`), in the order the route runs
them; ERP reads are not side effects and are modelled by the environment
oracles. -/
inductive Effect
  | ledgerInsert
  | pdfRender
  | pdfUpload
  | erpRentWrite
  | erpAdjWrite
  deriving DecidableEq

/-- Whether a step is one of the two ERP write-backs. -/
def isErpWrite : Effect → Bool
  | .erpRentWrite => true
  | .erpAdjWrite => true
  | _ => false

/-- The confirmation request body fields the validation step checks
(`Number(...)` results; `none` models a missing or non-finite value). -/
structure ConfirmBody where
  tenancy_id : Option ℚ
  old_rent : Option ℚ
  new_rent : Option ℚ
  applied_pct : Option ℚ
  effective_date : Option String
  deriving DecidableEq

/-- Embeds the validation chain of the confirmation `POST`: the first
failing check produces its 400 error message; `none` means valid. -/
def bodyError (b : ConfirmBody) : Option String :=
  match b.tenancy_id with
  | none => some "tenancy_id invalide"
  | some q =>
      if q ≤ 0 then some "tenancy_id invalide"
      else match b.old_rent with
        | none => some "old_rent invalide"
        | some _ => match b.new_rent with
          | none => some "new_rent invalide"
          | some _ => match b.effective_date with
            | none => some "effective_date manquante"
            | some s =>
                if s = "" then some "effective_date manquante" else none

/-- Outcomes of the external collaborators during one confirmation;
`Except.error` models a rejected call or a thrown exception. -/
structure ConfirmEnv where
  tenancyFound : Bool
  insertResult : Except String Nat
  uploadResult : Except String Unit
  rentSearch : Except String (List Nat)
  writeRent : Except String Bool
  writeAdj : Except String Bool

/-- The `odoo_update` status object of the confirmation response. -/
structure OdooUpdateStatus where
  rent_record_id : Option Nat
  wrote_rent : Bool
  wrote_adjustment_date : Bool
  error : Option String
  deriving DecidableEq

/-- Embeds the ERP write-back block (step 12 of the confirmation route):
search the latest rent record, write the rent, then write the adjustment
date; a thrown step aborts the block, and every failure is captured in
the status, never rethrown. Returns the status and the attempted writes. -/
def odooUpdate (env : ConfirmEnv) : OdooUpdateStatus × List Effect :=
  match env.rentSearch with
  | .error e => (⟨none, false, false, some e⟩, [])
  | .ok [] =>
      match env.writeAdj with
      | .error e => (⟨none, false, false, some e⟩, [.erpAdjWrite])
      | .ok b => (⟨none, false, b, none⟩, [.erpAdjWrite])
  | .ok (rid :: _) =>
      match env.writeRent with
      | .error e => (⟨some rid, false, false, some e⟩, [.erpRentWrite])
      | .ok wr =>
          match env.writeAdj with
          | .error e =>
              (⟨some rid, wr, false, some e⟩, [.erpRentWrite, .erpAdjWrite])
          | .ok b =>
              (⟨some rid, wr, b, none⟩, [.erpRentWrite, .erpAdjWrite])

/-- The confirmation response fields the claims examine. -/
structure ConfirmResponse where
  ok : Bool
  status : Nat
  error : Option String
  indexation_row_id : Option Nat
  pdf_upload_ok : Bool
  pdf_upload_error : Option String
  odoo_update : Option OdooUpdateStatus
  deriving DecidableEq

/-- Embeds the control flow of `POST` in
`app/api/indexations/confirm/route.ts` (the revision in which a failed
archival upload no longer aborts): validate, read the tenancy, insert the
ledger row (abort on failure), render the letter, attempt the archival
upload capturing its outcome, then attempt the ERP write-back capturing
its outcome. Returns the response together with the trace of attempted
side effects in order. -/
def confirmFlow (env : ConfirmEnv) (body : ConfirmBody) :
    ConfirmResponse × List Effect :=
  match bodyError body with
  | some e => (⟨false, 400, some e, none, false, none, none⟩, [])
  | none =>
      if !env.tenancyFound then
        (⟨false, 404, some "Tenancy introuvable dans Odoo", none, false,
          none, none⟩, [])
      else
        match env.insertResult with
        | .error _ =>
            (⟨false, 500, some "insert indexations échoué", none, false,
              none, none⟩, [.ledgerInsert])
        | .ok rowId =>
            let uploadOk := match env.uploadResult with
              | .ok _ => true
              | .error _ => false
            let uploadErr := match env.uploadResult with
              | .ok _ => none
              | .error e => some e
            let st := odooUpdate env
            (⟨true, 200, none, some rowId, uploadOk, uploadErr, some st.1⟩,
              [.ledgerInsert, .pdfRender, .pdfUpload] ++ st.2)

section EvaluateDispatch

variable {m y : String → Option ℚ} {now : Date} {t : TenancyRec}

lemma evaluate_lock (h : lockActive now t = true) :
    evaluate m y now t = lockVerdict := by
  simp [evaluate, h]

lemma evaluate_other (h : lockActive now t = false)
    (hk : detectIndexKind t.index_name = IndexKind.Other) :
    evaluate m y now t =
      otherVerdict (adjMonthKeyOf t) (adjYearKeyOf t) (prevMonthKey now)
        (currentAnnualKey now) := by
  simp [evaluate, h, hk]

lemma evaluate_manual (h : lockActive now t = false)
    (hk : detectIndexKind t.index_name = IndexKind.VPI ∨
          detectIndexKind t.index_name = IndexKind.VPIAnnual) :
    evaluate m y now t =
      manualVerdict (detectIndexKind t.index_name) (adjMonthKeyOf t)
        (adjYearKeyOf t) (prevMonthKey now) (currentAnnualKey now)
        (iAdjOf m y (detectIndexKind t.index_name) t)
        (iCurOf m y (detectIndexKind t.index_name) now)
        t.adjustment_date.isSome (waitReachedOf now t) (waitUntilOf t)
        (deltaOf (iAdjOf m y (detectIndexKind t.index_name) t)
          (iCurOf m y (detectIndexKind t.index_name) now))
        (t.threshold.getD 0) (coercePPP t.partially_passing_on)
        (t.maximal_percentage.getD 0) := by
  rcases hk with hk | hk <;> simp [evaluate, h, hk]

lemma evaluate_auto (h : lockActive now t = false)
    (hk : detectIndexKind t.index_name = IndexKind.VPIAutomatic ∨
          detectIndexKind t.index_name = IndexKind.VPIAutomaticAnnual) :
    evaluate m y now t =
      autoVerdict (detectIndexKind t.index_name) (adjMonthKeyOf t)
        (adjYearKeyOf t) (prevMonthKey now) (currentAnnualKey now)
        (iAdjOf m y (detectIndexKind t.index_name) t)
        (iCurOf m y (detectIndexKind t.index_name) now)
        t.adjustment_date.isSome (waitReachedOf now t) (waitUntilOf t)
        (deltaOf (iAdjOf m y (detectIndexKind t.index_name) t)
          (iCurOf m y (detectIndexKind t.index_name) now))
        (t.threshold.getD 0) (coercePPP t.partially_passing_on)
        (t.maximal_percentage.getD 0) := by
  rcases hk with hk | hk <;> simp [evaluate, h, hk]

end EvaluateDispatch

section Helpers

lemma jsFalsy_false {o : Option ℚ} (h : jsFalsy o = false) :
    ∃ x, o = some x ∧ x ≠ 0 := by
  cases o with
  | none => simp [jsFalsy] at h
  | some v =>
      refine ⟨v, rfl, ?_⟩
      simpa [jsFalsy] using h

lemma jsFalsy_eq_isNone {o : Option ℚ} (h : ∀ v, o = some v → 0 < v) :
    jsFalsy o = o.isNone := by
  cases o with
  | none => rfl
  | some v =>
      have hv := h v rfl
      simp [jsFalsy, hv.ne']

lemma deltaOf_eq_some {iAdj iCur : Option ℚ} (ha : jsFalsy iAdj = false)
    (hc : jsFalsy iCur = false) :
    ∃ a c, iAdj = some a ∧ iCur = some c ∧ a ≠ 0 ∧ c ≠ 0 ∧
      deltaOf iAdj iCur = some (c / a - 1) := by
  obtain ⟨a, rfl, ha0⟩ := jsFalsy_false ha
  obtain ⟨c, rfl, hc0⟩ := jsFalsy_false hc
  exact ⟨a, c, rfl, rfl, ha0, hc0, by simp [deltaOf, ha0, hc0]⟩

lemma iAdjOf_pos {m y : String → Option ℚ} {kind : IndexKind} {t : TenancyRec}
    (hm : ∀ k v, m k = some v → 0 < v) (hy : ∀ k v, y k = some v → 0 < v) :
    ∀ v, iAdjOf m y kind t = some v → 0 < v := by
  intro v hv
  unfold iAdjOf at hv
  split at hv
  · obtain ⟨k, _, hk⟩ := Option.bind_eq_some.mp hv
    exact hm k v hk
  · obtain ⟨k, _, hk⟩ := Option.bind_eq_some.mp hv
    exact hy k v hk

lemma iCurOf_pos {m y : String → Option ℚ} {kind : IndexKind} {now : Date}
    (hm : ∀ k v, m k = some v → 0 < v) (hy : ∀ k v, y k = some v → 0 < v) :
    ∀ v, iCurOf m y kind now = some v → 0 < v := by
  intro v hv
  unfold iCurOf at hv
  split at hv
  · exact hm _ v hv
  · exact hy _ v hv

lemma iAdjOf_none_of_no_adjDate {m y : String → Option ℚ} {kind : IndexKind}
    {t : TenancyRec} (h : t.adjustment_date = none) :
    iAdjOf m y kind t = none := by
  unfold iAdjOf adjMonthKeyOf adjYearKeyOf
  split <;> simp [h]

lemma manualVerdict_eligible_iff (kind : IndexKind) (amk ayk : Option String)
    (cmk cyk : String) (iAdj iCur : Option ℚ) (hasAdj waitR : Bool)
    (waitU : Option Date) (delta : Option ℚ) (threshold ppp cap : ℚ) :
    (manualVerdict kind amk ayk cmk cyk iAdj iCur hasAdj waitR waitU delta
        threshold ppp cap).eligible_now = true ↔
      ∃ a, (manualVerdict kind amk ayk cmk cyk iAdj iCur hasAdj waitR waitU
        delta threshold ppp cap).applied_percentage = some a ∧ 0 < a := by
  unfold manualVerdict kindBase
  split_ifs <;> simp

lemma autoVerdict_eligible_iff (kind : IndexKind) (amk ayk : Option String)
    (cmk cyk : String) (iAdj iCur : Option ℚ) (hasAdj waitR : Bool)
    (waitU : Option Date) (delta : Option ℚ) (threshold ppp cap : ℚ) :
    (autoVerdict kind amk ayk cmk cyk iAdj iCur hasAdj waitR waitU delta
        threshold ppp cap).eligible_now = true ↔
      ∃ a, (autoVerdict kind amk ayk cmk cyk iAdj iCur hasAdj waitR waitU
        delta threshold ppp cap).applied_percentage = some a ∧ 0 < a := by
  unfold autoVerdict kindBase
  split_ifs <;> simp

lemma manualVerdict_current_keys (kind : IndexKind) (amk ayk : Option String)
    (cmk cyk : String) (iAdj iCur : Option ℚ) (hasAdj waitR : Bool)
    (waitU : Option Date) (delta : Option ℚ) (threshold ppp cap : ℚ) :
    (manualVerdict kind amk ayk cmk cyk iAdj iCur hasAdj waitR waitU delta
        threshold ppp cap).current_month_key = some cmk ∧
    (manualVerdict kind amk ayk cmk cyk iAdj iCur hasAdj waitR waitU delta
        threshold ppp cap).current_year_key = some cyk := by
  unfold manualVerdict kindBase
  split_ifs <;> simp

lemma autoVerdict_current_keys (kind : IndexKind) (amk ayk : Option String)
    (cmk cyk : String) (iAdj iCur : Option ℚ) (hasAdj waitR : Bool)
    (waitU : Option Date) (delta : Option ℚ) (threshold ppp cap : ℚ) :
    (autoVerdict kind amk ayk cmk cyk iAdj iCur hasAdj waitR waitU delta
        threshold ppp cap).current_month_key = some cmk ∧
    (autoVerdict kind amk ayk cmk cyk iAdj iCur hasAdj waitR waitU delta
        threshold ppp cap).current_year_key = some cyk := by
  unfold autoVerdict kindBase
  split_ifs <;> simp

lemma autoVerdict_threshold_zero_wait (kind : IndexKind)
    (amk ayk : Option String) (cmk cyk : String) (a c : ℚ) (ha : a ≠ 0)
    (hc : c ≠ 0) (waitU : Option Date) (ppp cap : ℚ) :
    autoVerdict kind amk ayk cmk cyk (some a) (some c) true true waitU
        (deltaOf (some a) (some c)) 0 ppp cap =
      { kindBase kind amk ayk cmk cyk (some a) (some c) with
        delta := some (c / a - 1)
        eligible_now := decide (0 < capIncrease ((c / a - 1) * ppp) cap)
        applied_percentage := some (capIncrease ((c / a - 1) * ppp) cap) } := by
  unfold autoVerdict
  simp [jsFalsy, deltaOf, ha, hc]

lemma manualVerdict_applied_formula (kind : IndexKind)
    (amk ayk : Option String) (cmk cyk : String) (iAdj iCur : Option ℚ)
    (hasAdj waitR : Bool) (waitU : Option Date) (threshold ppp cap a : ℚ)
    (h : (manualVerdict kind amk ayk cmk cyk iAdj iCur hasAdj waitR waitU
        (deltaOf iAdj iCur) threshold ppp cap).applied_percentage = some a) :
    ∃ d, (manualVerdict kind amk ayk cmk cyk iAdj iCur hasAdj waitR waitU
        (deltaOf iAdj iCur) threshold ppp cap).delta = some d ∧
      a = capIncrease (d * ppp) cap ∧
      (manualVerdict kind amk ayk cmk cyk iAdj iCur hasAdj waitR waitU
        (deltaOf iAdj iCur) threshold ppp cap).reason = none := by
  unfold manualVerdict kindBase at h ⊢
  split_ifs at h ⊢ with h1 h2 h3 h4
  all_goals simp at h
  all_goals
    simp only [Bool.or_eq_true, not_or, Bool.not_eq_true] at h2
    obtain ⟨a0, c0, hA, hC, ha0, hc0, hd⟩ := deltaOf_eq_some h2.1 h2.2
    refine ⟨c0 / a0 - 1, by simp [hd], ?_, by simp⟩
    rw [← h, hd]
    simp

lemma autoVerdict_applied_formula (kind : IndexKind)
    (amk ayk : Option String) (cmk cyk : String) (iAdj iCur : Option ℚ)
    (hasAdj waitR : Bool) (waitU : Option Date) (threshold ppp cap a : ℚ)
    (h : (autoVerdict kind amk ayk cmk cyk iAdj iCur hasAdj waitR waitU
        (deltaOf iAdj iCur) threshold ppp cap).applied_percentage = some a) :
    ∃ d, (autoVerdict kind amk ayk cmk cyk iAdj iCur hasAdj waitR waitU
        (deltaOf iAdj iCur) threshold ppp cap).delta = some d ∧
      a = capIncrease (d * ppp) cap ∧
      (autoVerdict kind amk ayk cmk cyk iAdj iCur hasAdj waitR waitU
        (deltaOf iAdj iCur) threshold ppp cap).reason = none := by
  unfold autoVerdict kindBase at h ⊢
  split_ifs at h ⊢ with h1 h2 h3 h4
  all_goals simp at h
  all_goals
    simp only [Bool.or_eq_true, not_or, Bool.not_eq_true] at h1
    obtain ⟨a0, c0, hA, hC, ha0, hc0, hd⟩ := deltaOf_eq_some h1.1.1 h1.1.2
    refine ⟨c0 / a0 - 1, by simp [hd], ?_, by simp⟩
    rw [← h, hd]
    simp

end Helpers

section Scenarios

lemma manualVerdict_pass (kind : IndexKind) (amk ayk : Option String)
    (cmk cyk : String) (a c : ℚ) (ha : a ≠ 0) (hc : c ≠ 0)
    (waitU : Option Date) (threshold ppp cap : ℚ)
    (hthr : threshold ≤ c / a - 1) :
    manualVerdict kind amk ayk cmk cyk (some a) (some c) true true waitU
        (deltaOf (some a) (some c)) threshold ppp cap =
      { kindBase kind amk ayk cmk cyk (some a) (some c) with
        delta := some (c / a - 1)
        eligible_now := decide (0 < capIncrease ((c / a - 1) * ppp) cap)
        applied_percentage := some (capIncrease ((c / a - 1) * ppp) cap) } := by
  unfold manualVerdict
  simp [jsFalsy, deltaOf, ha, hc, not_lt.mpr hthr]

lemma evaluate_autoTen_fields :
    (evaluate declineTbl emptyTbl ⟨2024, 5, 20⟩ autoTen).applied_percentage =
        some (100 / 110 - 1) ∧
    (evaluate declineTbl emptyTbl ⟨2024, 5, 20⟩ autoTen).eligible_now =
        false ∧
    (evaluate declineTbl emptyTbl ⟨2024, 5, 20⟩ autoTen).delta =
        some (100 / 110 - 1) ∧
    (evaluate declineTbl emptyTbl ⟨2024, 5, 20⟩ autoTen).reason = none ∧
    (evaluate declineTbl emptyTbl ⟨2024, 5, 20⟩ autoTen).adjustment_index =
        some 110 ∧
    (evaluate declineTbl emptyTbl ⟨2024, 5, 20⟩ autoTen).current_index =
        some 100 := by
  have hdk : detectIndexKind autoTen.index_name = IndexKind.VPIAutomatic := by
    decide
  rw [evaluate_auto (by decide) (Or.inl hdk), hdk]
  have hA : iAdjOf declineTbl emptyTbl IndexKind.VPIAutomatic autoTen =
      some 110 := by decide
  have hC : iCurOf declineTbl emptyTbl IndexKind.VPIAutomatic ⟨2024, 5, 20⟩ =
      some 100 := by decide
  have hW : waitReachedOf ⟨2024, 5, 20⟩ autoTen = true := by decide
  have hS : autoTen.adjustment_date.isSome = true := by decide
  have hT : autoTen.threshold.getD 0 = 0 := rfl
  rw [hA, hC, hW, hS, hT,
    autoVerdict_threshold_zero_wait _ _ _ _ _ 110 100 (by norm_num)
      (by norm_num) _ _ _]
  have hppp : coercePPP autoTen.partially_passing_on = 1 := rfl
  have hcap : autoTen.maximal_percentage.getD 0 = 0 := rfl
  rw [hppp, hcap]
  have happ : capIncrease ((100 / 110 - 1) * 1) 0 = 100 / 110 - 1 := by
    unfold capIncrease
    norm_num
  rw [happ]
  refine ⟨by simp [kindBase], ?_, by simp [kindBase], by simp [kindBase],
    by simp [kindBase], by simp [kindBase]⟩
  simp only [kindBase]
  norm_num

lemma evaluate_autoTen_rise_eligible :
    (evaluate riseAutoTbl emptyTbl ⟨2024, 5, 20⟩ autoTen).eligible_now =
      true := by
  have hdk : detectIndexKind autoTen.index_name = IndexKind.VPIAutomatic := by
    decide
  rw [evaluate_auto (by decide) (Or.inl hdk), hdk]
  have hA : iAdjOf riseAutoTbl emptyTbl IndexKind.VPIAutomatic autoTen =
      some 100 := by decide
  have hC : iCurOf riseAutoTbl emptyTbl IndexKind.VPIAutomatic
      ⟨2024, 5, 20⟩ = some 110 := by decide
  have hW : waitReachedOf ⟨2024, 5, 20⟩ autoTen = true := by decide
  have hS : autoTen.adjustment_date.isSome = true := by decide
  have hT : autoTen.threshold.getD 0 = 0 := rfl
  rw [hA, hC, hW, hS, hT,
    autoVerdict_threshold_zero_wait _ _ _ _ _ 100 110 (by norm_num)
      (by norm_num) _ _ _]
  have hppp : coercePPP autoTen.partially_passing_on = 1 := rfl
  have hcap : autoTen.maximal_percentage.getD 0 = 0 := rfl
  rw [hppp, hcap]
  have happ : capIncrease ((110 / 100 - 1) * 1) 0 = 1 / 10 := by
    unfold capIncrease
    norm_num
  rw [happ]
  simp only [kindBase]
  norm_num

lemma evaluate_pppZeroTen_fields :
    (evaluate riseTbl emptyTbl ⟨2024, 2, 1⟩ pppZeroTen).applied_percentage =
        some 0 ∧
    (evaluate riseTbl emptyTbl ⟨2024, 2, 1⟩ pppZeroTen).delta =
        some (7 / 200) ∧
    (evaluate riseTbl emptyTbl ⟨2024, 2, 1⟩ pppZeroTen).eligible_now =
        false := by
  have hdk : detectIndexKind pppZeroTen.index_name = IndexKind.VPI := by
    decide
  rw [evaluate_manual (by decide) (Or.inl hdk), hdk]
  have hA : iAdjOf riseTbl emptyTbl IndexKind.VPI pppZeroTen =
      some 100 := by decide
  have hC : iCurOf riseTbl emptyTbl IndexKind.VPI ⟨2024, 2, 1⟩ =
      some (207 / 2) := by rfl
  have hW : waitReachedOf ⟨2024, 2, 1⟩ pppZeroTen = true := by decide
  have hS : pppZeroTen.adjustment_date.isSome = true := by decide
  have hT : pppZeroTen.threshold.getD 0 = 0 := rfl
  rw [hA, hC, hW, hS, hT,
    manualVerdict_pass _ _ _ _ _ 100 (207 / 2) (by norm_num) (by norm_num)
      _ _ _ _ (by norm_num)]
  have hppp : coercePPP pppZeroTen.partially_passing_on = 0 := rfl
  have hcap : pppZeroTen.maximal_percentage.getD 0 = 0 := rfl
  rw [hppp, hcap]
  have happ : capIncrease ((207 / 2 / 100 - 1) * 0) 0 = 0 := by
    unfold capIncrease
    norm_num
  rw [happ]
  refine ⟨by simp [kindBase], ?_, by simp [kindBase]⟩
  simp only [kindBase]
  norm_num

end Scenarios

/-- C10: in every verdict the route produces, `eligible_now` is true iff
`applied_percentage` is present and strictly positive; in particular a
triggered tenancy whose capped applied amount is zero or negative gets
`eligible_now = false` while still carrying that `applied_percentage`. -/
theorem eligibleNow_iff_positive_appliedPercentage
    (m y : String → Option ℚ) (now : Date) (t : TenancyRec) :
    ((evaluate m y now t).eligible_now = true ↔
      ∃ a, (evaluate m y now t).applied_percentage = some a ∧ 0 < a) ∧
    (∀ a, (evaluate m y now t).applied_percentage = some a → a ≤ 0 →
      (evaluate m y now t).eligible_now = false) := by
  have key : (evaluate m y now t).eligible_now = true ↔
      ∃ a, (evaluate m y now t).applied_percentage = some a ∧ 0 < a := by
    cases hl : lockActive now t with
    | true => rw [evaluate_lock hl]; simp [lockVerdict]
    | false =>
      cases hk : detectIndexKind t.index_name with
      | Other => rw [evaluate_other hl hk]; simp [otherVerdict]
      | VPI =>
          rw [evaluate_manual hl (Or.inl hk), hk]
          exact manualVerdict_eligible_iff ..
      | VPIAnnual =>
          rw [evaluate_manual hl (Or.inr hk), hk]
          exact manualVerdict_eligible_iff ..
      | VPIAutomatic =>
          rw [evaluate_auto hl (Or.inl hk), hk]
          exact autoVerdict_eligible_iff ..
      | VPIAutomaticAnnual =>
          rw [evaluate_auto hl (Or.inr hk), hk]
          exact autoVerdict_eligible_iff ..
  refine ⟨key, fun a ha hle => ?_⟩
  cases heq : (evaluate m y now t).eligible_now with
  | false => rfl
  | true =>
      obtain ⟨a', ha', hpos⟩ := key.mp heq
      rw [ha] at ha'
      exact absurd hpos (by simpa [Option.some_inj.mp ha'] using not_lt.mpr hle)

/-- C10 witness: a concrete automatic tenancy with a declining index, wait
reached and zero threshold carries `applied_percentage = 100/110 - 1 < 0`
yet is not eligible. -/
theorem eligibleNow_iff_positive_appliedPercentage_witness :
    (evaluate declineTbl emptyTbl ⟨2024, 5, 20⟩ autoTen).eligible_now =
      false :=
  (eligibleNow_iff_positive_appliedPercentage declineTbl emptyTbl
      ⟨2024, 5, 20⟩ autoTen).2 (100 / 110 - 1) evaluate_autoTen_fields.1
    (by norm_num)

/-- C6: the eligibility route takes no reference-key request parameters;
the reference month and year keys it uses and reports are always derived
from `now` alone (the calendar month and year immediately preceding it),
and are absent only in the lock branch. -/
theorem referenceKeys_always_previous_month
    (m y : String → Option ℚ) (now : Date) (t : TenancyRec) :
    ((evaluate m y now t).current_month_key = none ∨
      (evaluate m y now t).current_month_key = some (prevMonthKey now)) ∧
    ((evaluate m y now t).current_year_key = none ∨
      (evaluate m y now t).current_year_key = some (currentAnnualKey now)) := by
  cases hl : lockActive now t with
  | true => rw [evaluate_lock hl]; simp [lockVerdict]
  | false =>
    cases hk : detectIndexKind t.index_name with
    | Other => rw [evaluate_other hl hk]; simp [otherVerdict]
    | VPI =>
        rw [evaluate_manual hl (Or.inl hk)]
        exact ⟨Or.inr (manualVerdict_current_keys ..).1,
          Or.inr (manualVerdict_current_keys ..).2⟩
    | VPIAnnual =>
        rw [evaluate_manual hl (Or.inr hk)]
        exact ⟨Or.inr (manualVerdict_current_keys ..).1,
          Or.inr (manualVerdict_current_keys ..).2⟩
    | VPIAutomatic =>
        rw [evaluate_auto hl (Or.inl hk)]
        exact ⟨Or.inr (autoVerdict_current_keys ..).1,
          Or.inr (autoVerdict_current_keys ..).2⟩
    | VPIAutomaticAnnual =>
        rw [evaluate_auto hl (Or.inr hk)]
        exact ⟨Or.inr (autoVerdict_current_keys ..).1,
          Or.inr (autoVerdict_current_keys ..).2⟩

/-- C1 counterexample: the claim says `appliedPercentage` is never present
in a verdict whose `eligibleNow` is false, but a concrete automatic tenancy
(zero threshold, wait reached, declining index) carries
`applied_percentage = 100/110 - 1` with `eligible_now = false`. -/
theorem appliedPercentage_present_with_eligibleNow_false :
    (evaluate declineTbl emptyTbl ⟨2024, 5, 20⟩ autoTen).eligible_now =
        false ∧
    (evaluate declineTbl emptyTbl ⟨2024, 5, 20⟩ autoTen).applied_percentage ≠
        none :=
  ⟨evaluate_autoTen_fields.2.1, by rw [evaluate_autoTen_fields.1]; simp⟩

/-- C1 (amended): whenever `applied_percentage` is present, it equals
`min(delta * passThroughRatio, capRatio)` when `capRatio > 0` and
`delta * passThroughRatio` otherwise (`capRatio` zero or absent), and no
failure reason is set; `applied_percentage` is absent from every verdict
carrying a failure reason, but it may accompany `eligible_now = false`
when the capped amount is not positive. -/
theorem appliedPercentage_capped_formula (m y : String → Option ℚ)
    (now : Date) (t : TenancyRec) (a : ℚ)
    (ha : (evaluate m y now t).applied_percentage = some a) :
    ∃ d, (evaluate m y now t).delta = some d ∧
      a = (if 0 < t.maximal_percentage.getD 0
           then min (d * coercePPP t.partially_passing_on)
             (t.maximal_percentage.getD 0)
           else d * coercePPP t.partially_passing_on) ∧
      (evaluate m y now t).reason = none := by
  have hcap : ∀ v : ℚ, capIncrease v (t.maximal_percentage.getD 0) =
      (if 0 < t.maximal_percentage.getD 0
       then min v (t.maximal_percentage.getD 0) else v) := by
    intro v
    unfold capIncrease
    rcases le_or_lt (t.maximal_percentage.getD 0) 0 with hc | hc
    · rw [if_pos hc, if_neg (not_lt.mpr hc)]
    · rw [if_neg (not_le.mpr hc), if_pos hc]
  cases hl : lockActive now t with
  | true => rw [evaluate_lock hl] at ha; simp [lockVerdict] at ha
  | false =>
    cases hk : detectIndexKind t.index_name with
    | Other => rw [evaluate_other hl hk] at ha; simp [otherVerdict] at ha
    | VPI =>
        rw [evaluate_manual hl (Or.inl hk), hk] at ha ⊢
        obtain ⟨d, hd, hfor, hre⟩ :=
          manualVerdict_applied_formula _ _ _ _ _ _ _ _ _ _ _ _ _ _ ha
        exact ⟨d, hd, by rw [hfor, hcap], hre⟩
    | VPIAnnual =>
        rw [evaluate_manual hl (Or.inr hk), hk] at ha ⊢
        obtain ⟨d, hd, hfor, hre⟩ :=
          manualVerdict_applied_formula _ _ _ _ _ _ _ _ _ _ _ _ _ _ ha
        exact ⟨d, hd, by rw [hfor, hcap], hre⟩
    | VPIAutomatic =>
        rw [evaluate_auto hl (Or.inl hk), hk] at ha ⊢
        obtain ⟨d, hd, hfor, hre⟩ :=
          autoVerdict_applied_formula _ _ _ _ _ _ _ _ _ _ _ _ _ _ ha
        exact ⟨d, hd, by rw [hfor, hcap], hre⟩
    | VPIAutomaticAnnual =>
        rw [evaluate_auto hl (Or.inr hk), hk] at ha ⊢
        obtain ⟨d, hd, hfor, hre⟩ :=
          autoVerdict_applied_formula _ _ _ _ _ _ _ _ _ _ _ _ _ _ ha
        exact ⟨d, hd, by rw [hfor, hcap], hre⟩

/-- C1 witness: the formula theorem applied to a concrete verdict. -/
theorem appliedPercentage_capped_formula_witness :
    ∃ d, (evaluate declineTbl emptyTbl ⟨2024, 5, 20⟩ autoTen).delta =
        some d ∧
      (100 / 110 - 1 : ℚ) =
        (if 0 < autoTen.maximal_percentage.getD 0
         then min (d * coercePPP autoTen.partially_passing_on)
           (autoTen.maximal_percentage.getD 0)
         else d * coercePPP autoTen.partially_passing_on) ∧
      (evaluate declineTbl emptyTbl ⟨2024, 5, 20⟩ autoTen).reason = none :=
  appliedPercentage_capped_formula declineTbl emptyTbl ⟨2024, 5, 20⟩ autoTen
    _ evaluate_autoTen_fields.1

/-- C4 counterexample: with `thresholdRatio = 0`, adjustment date and both
index values present, and waiting time reached, eligibility still depends
on delta: the same tenancy on the same date is not eligible under a
declining index but eligible under a rising one. -/
theorem automatic_eligibility_depends_on_delta :
    waitReachedOf ⟨2024, 5, 20⟩ autoTen = true ∧
    autoTen.threshold = some 0 ∧
    (evaluate declineTbl emptyTbl ⟨2024, 5, 20⟩ autoTen).adjustment_index =
        some 110 ∧
    (evaluate declineTbl emptyTbl ⟨2024, 5, 20⟩ autoTen).current_index =
        some 100 ∧
    (evaluate declineTbl emptyTbl ⟨2024, 5, 20⟩ autoTen).eligible_now =
        false ∧
    (evaluate riseAutoTbl emptyTbl ⟨2024, 5, 20⟩ autoTen).eligible_now =
        true :=
  ⟨by decide, rfl, evaluate_autoTen_fields.2.2.2.2.1,
    evaluate_autoTen_fields.2.2.2.2.2, evaluate_autoTen_fields.2.1,
    evaluate_autoTen_rise_eligible⟩

lemma autoVerdict_triggered_iff (kind : IndexKind) (amk ayk : Option String)
    (cmk cyk : String) (iAdj iCur : Option ℚ) (waitR : Bool)
    (waitU : Option Date) (delta : Option ℚ) (threshold ppp cap : ℚ)
    (hA : jsFalsy iAdj = false) (hC : jsFalsy iCur = false) :
    ((autoVerdict kind amk ayk cmk cyk iAdj iCur true waitR waitU delta
        threshold ppp cap).applied_percentage.isSome = true ↔
      (if threshold = 0 then waitR = true
       else (waitR = true ∨ threshold ≤ delta.getD 0))) := by
  unfold autoVerdict kindBase
  simp only [hA, hC, Bool.or_false, Bool.or_self, Bool.not_true,
    Bool.false_or, if_false]
  split_ifs with h1 h2 h3 <;> cases waitR <;> simp_all

/-- C4 (amended): for an automatic tenancy that is not lock-blocked, with
the adjustment date present and both index values resolved (nonzero), the
TRIGGER — presence of `applied_percentage` — depends solely on the waiting
time when `thresholdRatio = 0`, and fires iff waiting is reached OR
`delta >= thresholdRatio` otherwise; `eligible_now` additionally requires
the capped applied amount to be positive, so it can still depend on the
sign of delta. -/
theorem automatic_trigger_characterization (m y : String → Option ℚ)
    (now : Date) (t : TenancyRec)
    (hl : lockActive now t = false)
    (hk : detectIndexKind t.index_name = IndexKind.VPIAutomatic ∨
          detectIndexKind t.index_name = IndexKind.VPIAutomaticAnnual)
    (hadj : t.adjustment_date.isSome = true)
    (hA : jsFalsy (iAdjOf m y (detectIndexKind t.index_name) t) = false)
    (hC : jsFalsy (iCurOf m y (detectIndexKind t.index_name) now) = false) :
    ((evaluate m y now t).applied_percentage.isSome = true ↔
      (if t.threshold.getD 0 = 0 then waitReachedOf now t = true
       else (waitReachedOf now t = true ∨
        t.threshold.getD 0 ≤
          (deltaOf (iAdjOf m y (detectIndexKind t.index_name) t)
            (iCurOf m y (detectIndexKind t.index_name) now)).getD 0))) ∧
    ((evaluate m y now t).eligible_now = true ↔
      ∃ a, (evaluate m y now t).applied_percentage = some a ∧ 0 < a) := by
  rw [evaluate_auto hl hk, hadj]
  exact ⟨autoVerdict_triggered_iff _ _ _ _ _ _ _ _ _ _ _ _ _ hA hC,
    autoVerdict_eligible_iff ..⟩

/-- C4 witness: the trigger characterization applied to a concrete
automatic tenancy with zero threshold and reached waiting time. -/
theorem automatic_trigger_characterization_witness :
    Option.isSome (evaluate declineTbl emptyTbl ⟨2024, 5, 20⟩
      autoTen).applied_percentage = true := by
  have h := automatic_trigger_characterization declineTbl emptyTbl
    ⟨2024, 5, 20⟩ autoTen (by decide) (Or.inl (by decide)) (by decide)
    (by decide) (by decide)
  have ht : autoTen.threshold.getD 0 = 0 := rfl
  rw [h.1, if_pos ht]
  decide

/-- C5 counterexample: a numeric zero `passThroughRatio` is kept as zero,
so the applied percentage is 0 and not the capped raw index delta 7/200:
the engine does not treat a zero ratio as full pass-through. -/
theorem zero_passThroughRatio_gives_zero_applied :
    pppZeroTen.partially_passing_on = some (PPPVal.num 0) ∧
    (evaluate riseTbl emptyTbl ⟨2024, 2, 1⟩ pppZeroTen).delta =
        some (7 / 200) ∧
    (evaluate riseTbl emptyTbl ⟨2024, 2, 1⟩ pppZeroTen).applied_percentage =
        some 0 ∧
    (0 : ℚ) ≠ capIncrease (7 / 200) (pppZeroTen.maximal_percentage.getD 0) :=
  ⟨rfl, evaluate_pppZeroTen_fields.2.1, evaluate_pppZeroTen_fields.1, by
    have hc : pppZeroTen.maximal_percentage.getD 0 = 0 := rfl
    rw [hc]
    unfold capIncrease
    norm_num⟩

/-- C5 (amended): an absent (`null`/`undefined`) `passThroughRatio`
defaults to full pass-through (coefficient 1) and a boolean is coerced to
1 (true) or 0 (false), but a numeric value — including zero — is used
as-is, so a zero ratio means zero pass-through, not full pass-through. -/
theorem coercePPP_characterization :
    coercePPP none = 1 ∧ coercePPP (some (PPPVal.flag true)) = 1 ∧
    coercePPP (some (PPPVal.flag false)) = 0 ∧
    ∀ q : ℚ, coercePPP (some (PPPVal.num q)) = q :=
  ⟨rfl, rfl, rfl, fun _ => rfl⟩

/-- C8 counterexample: `parseToMonthKey "15/06/2024"` is not rejected: the
`DD/MM/YYYY` regex branch accepts it and returns `"06/2024"`, regardless
of the `Date.parse` fallback (here the trivial one). -/
theorem parseToMonthKey_accepts_ddmmyyyy :
    parseToMonthKey (fun _ => none) "15/06/2024" = some "06/2024" ∧
    (some "06/2024" : Option String) ≠ none :=
  ⟨by decide, by decide⟩

/-- C8 (amended): `parseToMonthKey` maps "2024-06-15" and "06/2024" to
"06/2024", and the input "15/06/2024" is also accepted (as `DD/MM/YYYY`)
with result "06/2024" rather than being rejected; none of these reach the
`Date.parse` fallback. -/
theorem parseToMonthKey_format_examples (dp : String → Option Date) :
    parseToMonthKey dp "2024-06-15" = some "06/2024" ∧
    parseToMonthKey dp "06/2024" = some "06/2024" ∧
    parseToMonthKey dp "15/06/2024" = some "06/2024" := by
  refine ⟨?_, ?_, ?_⟩ <;> rfl

lemma daysInMonth_pos (y : Int) (m : Nat) : 28 ≤ daysInMonth y m := by
  unfold daysInMonth
  split_ifs <;> norm_num

/-- C9: `addMonths d n` advances the calendar month index by exactly `n`
and re-applies the original day-of-month clamped to the target month's
last valid day, never overflowing into the following month; in particular
2024-01-31 + 1 month = 2024-02-29 (leap year) and
2023-01-31 + 1 month = 2023-02-28. -/
theorem addMonths_advances_and_clamps (d : Date) (n : ℕ) (hd : 1 ≤ d.day) :
    monthIndex (addMonths d n) = monthIndex d + n ∧
    (addMonths d n).day =
      min d.day (daysInMonth (addMonths d n).year (addMonths d n).month) ∧
    1 ≤ (addMonths d n).month ∧ (addMonths d n).month ≤ 12 ∧
    1 ≤ (addMonths d n).day ∧
    (addMonths d n).day ≤
      daysInMonth (addMonths d n).year (addMonths d n).month ∧
    addMonths ⟨2024, 1, 31⟩ 1 = ⟨2024, 2, 29⟩ ∧
    addMonths ⟨2023, 1, 31⟩ 1 = ⟨2023, 2, 28⟩ := by
  have h1 : 0 ≤ (d.year * 12 + (d.month : Int) - 1 + n).emod 12 :=
    Int.emod_nonneg _ (by norm_num)
  have h2 : (d.year * 12 + (d.month : Int) - 1 + n).emod 12 < 12 :=
    Int.emod_lt_of_pos _ (by norm_num)
  have h3 : 12 * (d.year * 12 + (d.month : Int) - 1 + n).ediv 12 +
      (d.year * 12 + (d.month : Int) - 1 + n).emod 12 =
      d.year * 12 + (d.month : Int) - 1 + n := Int.ediv_add_emod _ _
  refine ⟨?_, rfl, ?_, ?_, ?_, ?_, by decide, by decide⟩
  · simp only [addMonths, monthIndex]
    push_cast [Int.toNat_of_nonneg h1]
    omega
  · simp only [addMonths]
    omega
  · simp only [addMonths]
    omega
  · simp only [addMonths]
    exact le_min hd (le_trans (by norm_num) (daysInMonth_pos _ _))
  · simp only [addMonths]
    exact min_le_right _ _

/-- C9 witness: the month-advance equation applied at a concrete date. -/
theorem addMonths_advances_and_clamps_witness :
    1 ≤ (⟨2024, 1, 31⟩ : Date).day ∧
    monthIndex (addMonths ⟨2024, 1, 31⟩ 5) = monthIndex ⟨2024, 1, 31⟩ + 5 :=
  ⟨by decide, (addMonths_advances_and_clamps ⟨2024, 1, 31⟩ 5 (by decide)).1⟩

lemma manualVerdict_fields (kind : IndexKind) (amk ayk : Option String)
    (cmk cyk : String) (iAdj iCur : Option ℚ) (hasAdj waitR : Bool)
    (waitU : Option Date) (delta : Option ℚ) (threshold ppp cap : ℚ) :
    (manualVerdict kind amk ayk cmk cyk iAdj iCur hasAdj waitR waitU delta
        threshold ppp cap).adjustment_index = iAdj ∧
    (manualVerdict kind amk ayk cmk cyk iAdj iCur hasAdj waitR waitU delta
        threshold ppp cap).current_index = iCur ∧
    (hasAdj = true → jsFalsy iAdj = false → jsFalsy iCur = false →
      (manualVerdict kind amk ayk cmk cyk iAdj iCur hasAdj waitR waitU delta
        threshold ppp cap).delta = delta) ∧
    (hasAdj = false →
      (manualVerdict kind amk ayk cmk cyk iAdj iCur hasAdj waitR waitU delta
        threshold ppp cap).delta = none) ∧
    (jsFalsy iAdj = true ∨ jsFalsy iCur = true →
      (manualVerdict kind amk ayk cmk cyk iAdj iCur hasAdj waitR waitU delta
        threshold ppp cap).delta = none) := by
  unfold manualVerdict kindBase
  split_ifs <;> simp_all
  all_goals intros
  all_goals simp_all

lemma autoVerdict_fields (kind : IndexKind) (amk ayk : Option String)
    (cmk cyk : String) (iAdj iCur : Option ℚ) (hasAdj waitR : Bool)
    (waitU : Option Date) (delta : Option ℚ) (threshold ppp cap : ℚ) :
    (autoVerdict kind amk ayk cmk cyk iAdj iCur hasAdj waitR waitU delta
        threshold ppp cap).adjustment_index = iAdj ∧
    (autoVerdict kind amk ayk cmk cyk iAdj iCur hasAdj waitR waitU delta
        threshold ppp cap).current_index = iCur ∧
    (hasAdj = true → jsFalsy iAdj = false → jsFalsy iCur = false →
      (autoVerdict kind amk ayk cmk cyk iAdj iCur hasAdj waitR waitU delta
        threshold ppp cap).delta = delta) ∧
    (hasAdj = false →
      (autoVerdict kind amk ayk cmk cyk iAdj iCur hasAdj waitR waitU delta
        threshold ppp cap).delta = none) ∧
    (jsFalsy iAdj = true ∨ jsFalsy iCur = true →
      (autoVerdict kind amk ayk cmk cyk iAdj iCur hasAdj waitR waitU delta
        threshold ppp cap).delta = none) := by
  unfold autoVerdict kindBase
  split_ifs <;> simp_all
  all_goals intros
  all_goals simp_all

lemma delta_iff_core (m y : String → Option ℚ) (now : Date) (t : TenancyRec)
    (hm : ∀ k v, m k = some v → 0 < v) (hy : ∀ k v, y k = some v → 0 < v)
    (K : IndexKind) (v : Verdict)
    (hidx1 : v.adjustment_index = iAdjOf m y K t)
    (hidx2 : v.current_index = iCurOf m y K now)
    (hsome : t.adjustment_date.isSome = true →
      jsFalsy (iAdjOf m y K t) = false → jsFalsy (iCurOf m y K now) = false →
      v.delta = deltaOf (iAdjOf m y K t) (iCurOf m y K now))
    (hnoadj : t.adjustment_date.isSome = false → v.delta = none)
    (hmiss : jsFalsy (iAdjOf m y K t) = true ∨
      jsFalsy (iCurOf m y K now) = true → v.delta = none) :
    (v.delta = none ↔
      v.adjustment_index = none ∨ v.current_index = none) ∧
    (∀ a c, v.adjustment_index = some a → v.current_index = some c →
      v.delta = some (c / a - 1)) := by
  rcases hAD : t.adjustment_date with _ | dd
  · have hiA : iAdjOf m y K t = none := iAdjOf_none_of_no_adjDate hAD
    have hδ : v.delta = none := hnoadj (by rw [hAD]; rfl)
    constructor
    · rw [hδ, hidx1, hiA]
      simp
    · intro a c haf _
      rw [hidx1, hiA] at haf
      cases haf
  · rcases hiA : iAdjOf m y K t with _ | a
    · have hδ : v.delta = none := hmiss (Or.inl (by rw [hiA]; rfl))
      constructor
      · rw [hδ, hidx1, hiA]
        simp
      · intro a c haf _
        rw [hidx1, hiA] at haf
        cases haf
    · rcases hiC : iCurOf m y K now with _ | c
      · have hδ : v.delta = none := hmiss (Or.inr (by rw [hiC]; rfl))
        constructor
        · rw [hδ, hidx1, hidx2, hiA, hiC]
          simp
        · intro a' c' _ hcf
          rw [hidx2, hiC] at hcf
          cases hcf
      · have ha0 : 0 < a := iAdjOf_pos hm hy a hiA
        have hc0 : 0 < c := iCurOf_pos hm hy c hiC
        have hfa : jsFalsy (iAdjOf m y K t) = false := by
          rw [hiA]
          simp [jsFalsy, ha0.ne']
        have hfc : jsFalsy (iCurOf m y K now) = false := by
          rw [hiC]
          simp [jsFalsy, hc0.ne']
        have hδ : v.delta = some (c / a - 1) := by
          rw [hsome (by rw [hAD]; rfl) hfa hfc, hiA, hiC]
          simp [deltaOf, ha0.ne', hc0.ne']
        constructor
        · rw [hδ, hidx1, hidx2, hiA, hiC]
          simp
        · intro a' c' haf hcf
          rw [hidx1, hiA] at haf
          rw [hidx2, hiC] at hcf
          rw [hδ, Option.some_inj.mp haf, Option.some_inj.mp hcf]

/-- C3: in every verdict produced for a recognized VPI kind (given the
spec-modelled positivity of the published CPI readings), `delta` is null
iff at least one of the previous/current index values is unresolved, and
when both resolve `delta = currentIndex / previousIndex - 1` exactly. -/
theorem delta_null_iff_unresolved (m y : String → Option ℚ) (now : Date)
    (t : TenancyRec)
    (hm : ∀ k v, m k = some v → 0 < v) (hy : ∀ k v, y k = some v → 0 < v)
    (k : IndexKind) (hk : (evaluate m y now t).index_kind = some k)
    (hko : k ≠ IndexKind.Other) :
    ((evaluate m y now t).delta = none ↔
      (evaluate m y now t).adjustment_index = none ∨
      (evaluate m y now t).current_index = none) ∧
    (∀ a c, (evaluate m y now t).adjustment_index = some a →
      (evaluate m y now t).current_index = some c →
      (evaluate m y now t).delta = some (c / a - 1)) := by
  cases hl : lockActive now t with
  | true =>
      rw [evaluate_lock hl] at hk
      simp [lockVerdict] at hk
  | false =>
    cases hkd : detectIndexKind t.index_name with
    | Other =>
        rw [evaluate_other hl hkd] at hk
        simp [otherVerdict] at hk
        exact absurd hk.symm hko
    | VPI =>
        rw [evaluate_manual hl (Or.inl hkd), hkd] at hk ⊢
        obtain ⟨h1, h2, h3, h4, h5⟩ := manualVerdict_fields ..
        exact delta_iff_core m y now t hm hy _ _ h1 h2 h3 h4 h5
    | VPIAnnual =>
        rw [evaluate_manual hl (Or.inr hkd), hkd] at hk ⊢
        obtain ⟨h1, h2, h3, h4, h5⟩ := manualVerdict_fields ..
        exact delta_iff_core m y now t hm hy _ _ h1 h2 h3 h4 h5
    | VPIAutomatic =>
        rw [evaluate_auto hl (Or.inl hkd), hkd] at hk ⊢
        obtain ⟨h1, h2, h3, h4, h5⟩ := autoVerdict_fields ..
        exact delta_iff_core m y now t hm hy _ _ h1 h2 h3 h4 h5
    | VPIAutomaticAnnual =>
        rw [evaluate_auto hl (Or.inr hkd), hkd] at hk ⊢
        obtain ⟨h1, h2, h3, h4, h5⟩ := autoVerdict_fields ..
        exact delta_iff_core m y now t hm hy _ _ h1 h2 h3 h4 h5

lemma manualVerdict_index_kind (kind : IndexKind) (amk ayk : Option String)
    (cmk cyk : String) (iAdj iCur : Option ℚ) (hasAdj waitR : Bool)
    (waitU : Option Date) (delta : Option ℚ) (threshold ppp cap : ℚ) :
    (manualVerdict kind amk ayk cmk cyk iAdj iCur hasAdj waitR waitU delta
        threshold ppp cap).index_kind = some kind := by
  unfold manualVerdict kindBase
  split_ifs <;> simp

lemma manualVerdict_reason (kind : IndexKind) (amk ayk : Option String)
    (cmk cyk : String) (iAdj iCur : Option ℚ) (hasAdj waitR : Bool)
    (waitU : Option Date) (delta : Option ℚ) (threshold ppp cap : ℚ) :
    (manualVerdict kind amk ayk cmk cyk iAdj iCur hasAdj waitR waitU delta
        threshold ppp cap).reason =
      (if hasAdj = false then some "no adjustment_date"
       else if (jsFalsy iAdj || jsFalsy iCur) = true then
         some "missing index data"
       else if waitR = false then some "waiting_time not reached"
       else if delta.getD 0 < threshold then some "delta below threshold"
       else none) := by
  unfold manualVerdict kindBase
  split_ifs <;> simp_all

lemma autoVerdict_reason (kind : IndexKind) (amk ayk : Option String)
    (cmk cyk : String) (iAdj iCur : Option ℚ) (hasAdj waitR : Bool)
    (waitU : Option Date) (delta : Option ℚ) (threshold ppp cap : ℚ) :
    (autoVerdict kind amk ayk cmk cyk iAdj iCur hasAdj waitR waitU delta
        threshold ppp cap).reason =
      (if (jsFalsy iAdj || jsFalsy iCur || !hasAdj) = true then
         some "missing adjustment date or index"
       else if (if threshold = 0 then waitR
                else waitR || decide (threshold ≤ delta.getD 0)) = false then
         some "automatic: neither wait nor threshold reached"
       else none) := by
  unfold autoVerdict kindBase
  split_ifs <;> simp_all

lemma manualVerdict_reason_none_iff (kind : IndexKind)
    (amk ayk : Option String) (cmk cyk : String) (iAdj iCur : Option ℚ)
    (hasAdj waitR : Bool) (waitU : Option Date) (delta : Option ℚ)
    (threshold ppp cap : ℚ) :
    ((manualVerdict kind amk ayk cmk cyk iAdj iCur hasAdj waitR waitU delta
        threshold ppp cap).reason = none ↔
      Option.isSome (manualVerdict kind amk ayk cmk cyk iAdj iCur hasAdj
        waitR waitU delta threshold ppp cap).applied_percentage = true) := by
  unfold manualVerdict kindBase
  split_ifs <;> simp

lemma autoVerdict_reason_none_iff (kind : IndexKind)
    (amk ayk : Option String) (cmk cyk : String) (iAdj iCur : Option ℚ)
    (hasAdj waitR : Bool) (waitU : Option Date) (delta : Option ℚ)
    (threshold ppp cap : ℚ) :
    ((autoVerdict kind amk ayk cmk cyk iAdj iCur hasAdj waitR waitU delta
        threshold ppp cap).reason = none ↔
      Option.isSome (autoVerdict kind amk ayk cmk cyk iAdj iCur hasAdj
        waitR waitU delta threshold ppp cap).applied_percentage = true) := by
  unfold autoVerdict kindBase
  split_ifs <;> simp

/-- C2: each evaluation produces one verdict; its `reason`, when set, is
exactly the first failing rule of the precedence order of section 4.1
(formalized as the spec-side decision table `specFirstFailingReason`,
equal given the spec-modelled positivity of published CPI readings), and
the reason is absent exactly when the evaluation reaches the
amount-computation ("eligible") terminal state, i.e. when
`applied_percentage` is present — so the eight terminal states are
mutually exclusive. -/
theorem reason_matches_first_failing_rule (m y : String → Option ℚ)
    (now : Date) (t : TenancyRec)
    (hm : ∀ k v, m k = some v → 0 < v)
    (hy : ∀ k v, y k = some v → 0 < v) :
    (evaluate m y now t).reason = specFirstFailingReason m y now t ∧
    ((evaluate m y now t).reason = none ↔
      Option.isSome (evaluate m y now t).applied_percentage = true) := by
  have hia : ∀ K, jsFalsy (iAdjOf m y K t) = (iAdjOf m y K t).isNone :=
    fun K => jsFalsy_eq_isNone (fun v => iAdjOf_pos hm hy v)
  have hic : ∀ K, jsFalsy (iCurOf m y K now) = (iCurOf m y K now).isNone :=
    fun K => jsFalsy_eq_isNone (fun v => iCurOf_pos hm hy v)
  constructor
  · cases hl : lockActive now t with
    | true =>
        rw [evaluate_lock hl]
        unfold specFirstFailingReason
        rw [if_pos hl]
        rfl
    | false =>
      unfold specFirstFailingReason
      rw [if_neg (by simp [hl])]
      cases hkd : detectIndexKind t.index_name with
      | Other =>
          rw [evaluate_other hl hkd]
          simp [otherVerdict]
      | VPI =>
          rw [evaluate_manual hl (Or.inl hkd), hkd, manualVerdict_reason]
          simp only [hia, hic]
          rcases t.adjustment_date with _ | dd <;>
            simp [Bool.or_eq_true]
      | VPIAnnual =>
          rw [evaluate_manual hl (Or.inr hkd), hkd, manualVerdict_reason]
          simp only [hia, hic]
          rcases t.adjustment_date with _ | dd <;>
            simp [Bool.or_eq_true]
      | VPIAutomatic =>
          rw [evaluate_auto hl (Or.inl hkd), hkd, autoVerdict_reason]
          simp only [hia, hic]
          rcases t.adjustment_date with _ | dd <;>
            simp [Bool.or_eq_true]
      | VPIAutomaticAnnual =>
          rw [evaluate_auto hl (Or.inr hkd), hkd, autoVerdict_reason]
          simp only [hia, hic]
          rcases t.adjustment_date with _ | dd <;>
            simp [Bool.or_eq_true]
  · cases hl : lockActive now t with
    | true => rw [evaluate_lock hl]; simp [lockVerdict]
    | false =>
      cases hkd : detectIndexKind t.index_name with
      | Other => rw [evaluate_other hl hkd]; simp [otherVerdict]
      | VPI =>
          rw [evaluate_manual hl (Or.inl hkd)]
          exact manualVerdict_reason_none_iff ..
      | VPIAnnual =>
          rw [evaluate_manual hl (Or.inr hkd)]
          exact manualVerdict_reason_none_iff ..
      | VPIAutomatic =>
          rw [evaluate_auto hl (Or.inl hkd)]
          exact autoVerdict_reason_none_iff ..
      | VPIAutomaticAnnual =>
          rw [evaluate_auto hl (Or.inr hkd)]
          exact autoVerdict_reason_none_iff ..

lemma constTbl_pos : ∀ k v, constTbl k = some v → 0 < v := by
  intro k v hv
  simp only [constTbl, Option.some.injEq] at hv
  rw [← hv]
  norm_num

lemma evaluate_constTen_fields :
    (evaluate constTbl constTbl ⟨2024, 2, 1⟩ pppZeroTen).index_kind =
        some IndexKind.VPI ∧
    (evaluate constTbl constTbl ⟨2024, 2, 1⟩ pppZeroTen).adjustment_index =
        some 100 ∧
    (evaluate constTbl constTbl ⟨2024, 2, 1⟩ pppZeroTen).current_index =
        some 100 := by
  have hdk : detectIndexKind pppZeroTen.index_name = IndexKind.VPI := by
    decide
  rw [evaluate_manual (by decide) (Or.inl hdk), hdk]
  refine ⟨manualVerdict_index_kind .., ?_, ?_⟩
  · rw [(manualVerdict_fields ..).1]
    decide
  · rw [(manualVerdict_fields ..).2.1]
    decide

/-- C3 witness: the delta equation applied at a concrete tenancy whose
indices both resolve. -/
theorem delta_null_iff_unresolved_witness :
    (evaluate constTbl constTbl ⟨2024, 2, 1⟩ pppZeroTen).delta =
      some (100 / 100 - 1) :=
  (delta_null_iff_unresolved constTbl constTbl ⟨2024, 2, 1⟩ pppZeroTen
      constTbl_pos constTbl_pos IndexKind.VPI evaluate_constTen_fields.1
      (by decide)).2 100 100 evaluate_constTen_fields.2.1
    evaluate_constTen_fields.2.2

/-- C2 witness: the reason of a concrete evaluation equals the spec-side
first-failing-rule decision table at the same input. -/
theorem reason_matches_first_failing_rule_witness :
    (evaluate constTbl constTbl ⟨2024, 2, 1⟩ pppZeroTen).reason =
      specFirstFailingReason constTbl constTbl ⟨2024, 2, 1⟩ pppZeroTen :=
  (reason_matches_first_failing_rule constTbl constTbl ⟨2024, 2, 1⟩
    pppZeroTen constTbl_pos constTbl_pos).1

/-- C7: the ledger insert is attempted first and its failure aborts the
request with an error response before any letter, archival, or ERP side
effect; the archival upload outcome influences neither whether the ERP
write-back is attempted nor its result; and ERP write failures are
captured in the structured `odoo_update` field of a response that is
still `ok` and still reports the ledger row id. -/
theorem confirm_saga_isolation (env : ConfirmEnv) (body : ConfirmBody)
    (hb : bodyError body = none) (hf : env.tenancyFound = true) :
    (∀ e, env.insertResult = .error e →
      (confirmFlow env body).1.ok = false ∧
      (confirmFlow env body).2 = [Effect.ledgerInsert]) ∧
    (∀ u, ((confirmFlow { env with uploadResult := u } body).2.filter
        isErpWrite = (confirmFlow env body).2.filter isErpWrite) ∧
      (confirmFlow { env with uploadResult := u } body).1.odoo_update =
        (confirmFlow env body).1.odoo_update) ∧
    (∀ rowId, env.insertResult = .ok rowId →
      (confirmFlow env body).1.ok = true ∧
      (confirmFlow env body).1.indexation_row_id = some rowId ∧
      (confirmFlow env body).1.odoo_update = some (odooUpdate env).1 ∧
      (confirmFlow env body).2 =
        [Effect.ledgerInsert, Effect.pdfRender, Effect.pdfUpload] ++
          (odooUpdate env).2) ∧
    (∀ e, env.rentSearch = .error e → (odooUpdate env).1.error = some e) ∧
    (∀ e rid rest, env.rentSearch = .ok (rid :: rest) →
      env.writeRent = .error e → (odooUpdate env).1.error = some e) ∧
    (∀ e l wr, env.rentSearch = .ok l → env.writeRent = .ok wr →
      env.writeAdj = .error e → (odooUpdate env).1.error = some e) ∧
    (∀ l, env.rentSearch = .ok l →
      (l = [] ∨ ∃ wr, env.writeRent = .ok wr) →
      Effect.erpAdjWrite ∈ (odooUpdate env).2) := by
  refine ⟨?_, ?_, ?_, ?_, ?_, ?_, ?_⟩
  · intro e he
    simp [confirmFlow, hb, hf, he]
  · intro u
    cases hi : env.insertResult with
    | error e => simp [confirmFlow, hb, hf, hi, isErpWrite]
    | ok rowId =>
        simp [confirmFlow, hb, hf, hi, odooUpdate, isErpWrite]
  · intro rowId hi
    refine ⟨by simp [confirmFlow, hb, hf, hi], by simp [confirmFlow, hb, hf, hi],
      by simp [confirmFlow, hb, hf, hi], by simp [confirmFlow, hb, hf, hi]⟩
  · intro e he
    simp [odooUpdate, he]
  · intro e rid rest hs hw
    simp [odooUpdate, hs, hw]
  · intro e l wr hs hw ha
    cases l with
    | nil => simp [odooUpdate, hs, ha]
    | cons rid rest => simp [odooUpdate, hs, hw, ha]
  · intro l hs hl
    rcases hl with rfl | ⟨wr, hw⟩
    · cases ha : env.writeAdj with
      | error e => simp [odooUpdate, hs, ha]
      | ok b => simp [odooUpdate, hs, ha]
    · cases l with
      | nil =>
          cases ha : env.writeAdj with
          | error e => simp [odooUpdate, hs, ha]
          | ok b => simp [odooUpdate, hs, ha]
      | cons rid rest =>
          cases ha : env.writeAdj with
          | error e => simp [odooUpdate, hs, hw, ha]
          | ok b => simp [odooUpdate, hs, hw, ha]

/-- C7 witness: a failed ledger insert on a valid request leaves exactly
the single ledger-insert attempt in the trace. -/
theorem confirm_saga_isolation_witness :
    (confirmFlow
      ⟨true, Except.error "ledger down", Except.ok (), Except.ok [],
        Except.ok true, Except.ok true⟩
      ⟨some 1, some 100, some 105, none, some "2025-01-01"⟩).2 =
      [Effect.ledgerInsert] :=
  ((confirm_saga_isolation
      ⟨true, Except.error "ledger down", Except.ok (), Except.ok [],
        Except.ok true, Except.ok true⟩
      ⟨some 1, some 100, some 105, none, some "2025-01-01"⟩
      (by decide) rfl).1 "ledger down" rfl).2

/-- C2 counterexample: a tenancy that reaches the amount-computation step
with a non-positive capped amount is not eligible yet carries no reason
string, so "every non-eligible tenancy has exactly one reason" fails when
"non-eligible" is read as `eligibleNow = false`. -/
theorem nonEligible_verdict_without_reason :
    (evaluate declineTbl emptyTbl ⟨2024, 5, 20⟩ autoTen).eligible_now =
        false ∧
    (evaluate declineTbl emptyTbl ⟨2024, 5, 20⟩ autoTen).reason = none :=
  ⟨evaluate_autoTen_fields.2.1, evaluate_autoTen_fields.2.2.2.1⟩
